import Mathlib

/-!
# Verification of the tsundoku data model (`src/tsundoku/datamodel.rs`)

Shallow embedding of the persistence core of the tsundoku link tracker.
The sqlite tables are modelled as Lean lists of rows kept in insertion
order (sqlite rowid order), and the connection's `last_insert_rowid` is
carried explicitly in the state.  Each rusqlite `execute` of a write
statement can fail with an abstract storage fault; faults are injected
through an explicit oracle (a list of booleans consumed one per write),
so that the empty oracle means fault-free execution.  The source code
frequently discards `Result` values (with a bare `;`); the embedding
reproduces that faithfully.
-/

namespace Tsundoku

/-- `Archive` (datamodel.rs line 36): marker of where we are in reading a
link. `Queue as u8 = 0`, `Archive as u8 = 1` (Rust default discriminants). -/
inductive Archive where
  | Queue
  | Archive
deriving DecidableEq

/-- The integer a variant of `Archive` is stored as (`Archive::Queue as u8`). -/
def archiveToU8 : Archive → Nat
  | .Queue => 0
  | .Archive => 1

/-- `Entry` (datamodel.rs line 52): transient input of `add_entry`.
`NaiveDateTime` is modelled as its stored text. -/
structure Entry where
  link : String
  comment : Option String
  tags : Option (List String)
  archive : Archive
  timestamp : String
deriving DecidableEq

/-- `TagAddResult` (datamodel.rs line 66). -/
inductive TagAddResult where
  | TagAlreadyExists
  | TagId (i : Int)
deriving DecidableEq

/-- `TagQueryResult` (datamodel.rs line 72). -/
inductive TagQueryResult where
  | TagNotFound
  | TagId (i : Int)
deriving DecidableEq

/-- `impl PartialEq<TagQueryResult> for TagAddResult` (datamodel.rs lines 77-84). -/
def tagAddEqQuery : TagAddResult → TagQueryResult → Bool
  | .TagId i, .TagId j => i == j
  | _, _ => false

/-- `impl PartialEq<TagAddResult> for TagQueryResult` (datamodel.rs lines 85-92). -/
def tagQueryEqAdd : TagQueryResult → TagAddResult → Bool
  | .TagId i, .TagId j => i == j
  | _, _ => false

/-- A row of the `links` table, with the columns named by `add_entry`'s
insert statement (datamodel.rs line 215). -/
structure LinkRow where
  link_id : Int
  link : String
  comment : String
  archive : Nat
  timestamp : String
deriving DecidableEq

/-- A row of the `tags` table. -/
structure TagRow where
  tag_id : Int
  tag : String
deriving DecidableEq

/-- A row of the `linktags` table. -/
structure LinkTagRow where
  link_id : Int
  tag_id : Int
deriving DecidableEq

/-- The state behind a `Database` connection: the three tables in rowid
(insertion) order plus the connection's `last_insert_rowid` value. -/
structure DB where
  links : List LinkRow
  tags : List TagRow
  linktags : List LinkTagRow
  last_rowid : Int
deriving DecidableEq

/-- Abstract storage-engine failure (a rusqlite error). -/
inductive SqlError where
  | fault
deriving DecidableEq

/-- Fault oracle: one boolean per write `execute`; `true` makes that write
fail. An exhausted oracle means no further faults. -/
abbrev Oracle := List Bool

/-- One rusqlite `execute` of a write statement whose logical effect on the
state is `eff`: consumes one oracle entry; on a fault the statement has no
effect, on success it returns the changed-row count 1. -/
def runExec (db : DB) (o : Oracle) (eff : DB → DB) :
    Except SqlError Nat × DB × Oracle :=
  match o with
  | [] => (.ok 1, eff db, [])
  | b :: rest => if b then (.error .fault, db, rest) else (.ok 1, eff db, rest)

/-- sqlite rowid assignment for an insert with a NULL autoincrement key:
one more than the largest id already in the table (1 on an empty table;
ids are never reused since nothing is deleted). -/
def nextId (ids : List Int) : Int := ids.foldl max 0 + 1

/-- `Database::open_in_memory` (datamodel.rs line 95): a fresh empty
database after `init_database` ran; `last_insert_rowid` starts at 0. -/
def open_in_memory : DB := ⟨[], [], [], 0⟩

/-- `Database::get_tag_id` (datamodel.rs lines 158-168):
`select tag_id from tags where tag == ?1`, taking the first returned row. -/
def get_tag_id (db : DB) (tag : String) : Except SqlError TagQueryResult :=
  match db.tags.find? (fun r => r.tag == tag) with
  | some r => .ok (.TagId r.tag_id)
  | none => .ok .TagNotFound

/-- `Database::contains_tag` (datamodel.rs lines 178-183). -/
def contains_tag (db : DB) (tag : String) : Except SqlError Bool :=
  match get_tag_id db tag with
  | .ok (.TagId _) => .ok true
  | .ok .TagNotFound => .ok false
  | .error e => .error e

/-- `Database::list_tags` (datamodel.rs lines 196-200):
`select tag from tags;` in rowid (insertion) order. -/
def list_tags (db : DB) : Except SqlError (List String) :=
  .ok (db.tags.map (fun r => r.tag))

/-- `Database::add_tag` (datamodel.rs lines 239-252): checks
`contains_tag`, and only when absent inserts
`insert into tags (tag_id, tag) values (NULL, ?1)` and returns
`TagId(last_insert_rowid)`. -/
def add_tag (db : DB) (o : Oracle) (tag : String) :
    Except SqlError TagAddResult × DB × Oracle :=
  match contains_tag db tag with
  | .error e => (.error e, db, o)
  | .ok true => (.ok .TagAlreadyExists, db, o)
  | .ok false =>
      let newId := nextId (db.tags.map (fun r => r.tag_id))
      match runExec db o (fun d =>
          { d with tags := d.tags ++ [⟨newId, tag⟩], last_rowid := newId }) with
      | (.ok _, db1, o1) => (.ok (.TagId db1.last_rowid), db1, o1)
      | (.error e, db1, o1) => (.error e, db1, o1)

/-- The `for tag in ts { self.add_tag(tag); }` loop inside `add_entry`
(datamodel.rs lines 227-230); each `add_tag` result is discarded. -/
def addTagsLoop (db : DB) (o : Oracle) : List String → DB × Oracle
  | [] => (db, o)
  | t :: ts =>
      let r := add_tag db o t
      addTagsLoop r.2.1 r.2.2 ts

/-- `Database::add_entry` (datamodel.rs lines 202-236): defaults a missing
comment to `""`, always uses `Archive::Queue`, executes the links insert
with its `Result` discarded, reads `last_insert_rowid`, runs the tag loop
(results discarded, no `linktags` rows ever written), and returns `Ok(0)`. -/
def add_entry (db : DB) (o : Oracle) (entry : Entry) :
    Except SqlError Nat × DB × Oracle :=
  let link := entry.link
  let comment := match entry.comment with
    | some c => c
    | none => ""
  let archive := archiveToU8 Archive.Queue
  let timestamp := entry.timestamp
  let newLinkId := nextId (db.links.map (fun r => r.link_id))
  let r1 := runExec db o (fun d =>
    { d with links := d.links ++ [⟨newLinkId, link, comment, archive, timestamp⟩],
             last_rowid := newLinkId })
  let db1 := r1.2.1
  let o1 := r1.2.2
  let _link_id := db1.last_rowid
  let r2 := match entry.tags with
    | some ts => addTagsLoop db1 o1 ts
    | none => (db1, o1)
  (.ok 0, r2.1, r2.2)

/-- `Database::tag_link` (datamodel.rs line 254): an empty stub, never
called; it has no effect and returns unit. -/
def tag_link (_db : DB) (_tag_id : Int) (_link_id : Int) : Unit := ()

/-- A table schema of the sqlite catalog: name and declared column names,
taken verbatim from the `create table` statements. -/
structure TableSchema where
  name : String
  columns : List String
deriving DecidableEq

/-- `create table if not exists`: adds the table only when no table of
that name exists yet. -/
def createTableIfNotExists (cat : List TableSchema) (t : TableSchema) :
    List TableSchema :=
  if cat.any (fun s => s.name == t.name) then cat else cat ++ [t]

/-- The `links` table as declared by `init_database` (datamodel.rs
lines 107-111): columns `link_id`, `link`, `comment` only. -/
def linksTableDef : TableSchema := ⟨"links", ["link_id", "link", "comment"]⟩

/-- The `tags` table as declared by `init_database` (datamodel.rs lines 116-119). -/
def tagsTableDef : TableSchema := ⟨"tags", ["tag_id", "tag"]⟩

/-- The `linktags` table as declared by `init_database` (datamodel.rs
lines 124-129), with foreign keys to `links` and `tags`. -/
def linktagsTableDef : TableSchema := ⟨"linktags", ["link_id", "tag_id"]⟩

/-- `Database::init_database` (datamodel.rs lines 103-133): creates the
three tables if absent, in order links, tags, linktags. -/
def init_database (cat : List TableSchema) : List TableSchema :=
  createTableIfNotExists
    (createTableIfNotExists (createTableIfNotExists cat linksTableDef) tagsTableDef)
    linktagsTableDef

/-- The column list named by `add_entry`'s insert statement
(datamodel.rs line 215): `insert into links (link_id, link, comment,
archive, timestamp)`. -/
def addEntryInsertColumns : List String :=
  ["link_id", "link", "comment", "archive", "timestamp"]

/-- `NotFoundError` of the spec's `mark_read` contract. -/
inductive NotFoundError where
  | NotFound
deriving DecidableEq

/-- Sets a link row's archive state to `Archived` when its id matches. -/
def setArchived (id : Int) (r : LinkRow) : LinkRow :=
  if r.link_id == id then { r with archive := archiveToU8 Archive.Archive } else r

/-- Modelled from the spec: `mark_read` is absent from `src/` (the CLI
only declares a `read` subcommand that would call it).  Per spec §4.3 it
transitions the named link's archive state from `Queue` to `Archived`,
fails with `NotFound` when no link with that identifier exists, and
re-marking an already-archived link is not an error (no-op). -/
def mark_read (db : DB) (id : Int) : Except NotFoundError Unit × DB :=
  if db.links.any (fun r => r.link_id == id) then
    (.ok (), { db with links := db.links.map (setArchived id) })
  else
    (.error .NotFound, db)

/-- Tag-text uniqueness: no two rows of `tags` share the same text. -/
def tagsUnique (db : DB) : Prop := (db.tags.map (fun r => r.tag)).Nodup

/-- Number of `tags` rows whose text is `t`. -/
def countTag (db : DB) (t : String) : Nat := (db.tags.map (fun r => r.tag)).count t

/-- The state after a successful insert of a fresh tag `t`. -/
def insertTagState (db : DB) (t : String) : DB :=
  { db with tags := db.tags ++ [⟨nextId (db.tags.map (fun r => r.tag_id)), t⟩],
            last_rowid := nextId (db.tags.map (fun r => r.tag_id)) }

/-- The entry of the spec's §8 scenario: link with comment and tags
`["news", "tech"]`. -/
def entryNewsTech : Entry :=
  ⟨"http://example.com", some "nice", some ["news", "tech"], .Queue,
   "2020-01-01 00:00:00"⟩

/-- An entry with no comment and tags `["x", "y"]`. -/
def entryXY : Entry :=
  ⟨"http://example.com", none, some ["x", "y"], .Queue, "2020-01-01 00:00:00"⟩

/-- An entry with no comment and no tags. -/
def entrySimple : Entry := ⟨"a", none, none, .Queue, "t0"⟩

/-- A database holding a single queued link with identifier 1. -/
def dbOneLink : DB := ⟨[⟨1, "l", "", 0, "ts"⟩], [], [], 1⟩

/-! ## Helper lemmas about the tag repository -/

theorem find?_tag_eq_none_iff (db : DB) (t : String) :
    db.tags.find? (fun r => r.tag == t) = none ↔ t ∉ db.tags.map (fun r => r.tag) := by
  rw [List.find?_eq_none]
  constructor
  · intro h hmem
    obtain ⟨r, hr, hrt⟩ := List.mem_map.mp hmem
    exact h r hr (by simp [hrt])
  · intro h r hr
    simp only [beq_iff_eq]
    intro hrt
    exact h (List.mem_map.mpr ⟨r, hr, hrt⟩)

theorem add_tag_present {db : DB} {t : String} {r : TagRow} (o : Oracle)
    (hf : db.tags.find? (fun r => r.tag == t) = some r) :
    add_tag db o t = (.ok .TagAlreadyExists, db, o) := by
  simp [add_tag, contains_tag, get_tag_id, hf]

theorem add_tag_absent_nil {db : DB} {t : String}
    (hf : db.tags.find? (fun r => r.tag == t) = none) :
    add_tag db [] t =
      (.ok (.TagId (nextId (db.tags.map (fun r => r.tag_id)))), insertTagState db t, []) := by
  simp [add_tag, contains_tag, get_tag_id, hf, runExec, insertTagState]

theorem add_tag_absent_cons_true {db : DB} {t : String} (o : Oracle)
    (hf : db.tags.find? (fun r => r.tag == t) = none) :
    add_tag db (true :: o) t = (.error .fault, db, o) := by
  simp [add_tag, contains_tag, get_tag_id, hf, runExec]

theorem add_tag_absent_cons_false {db : DB} {t : String} (o : Oracle)
    (hf : db.tags.find? (fun r => r.tag == t) = none) :
    add_tag db (false :: o) t =
      (.ok (.TagId (nextId (db.tags.map (fun r => r.tag_id)))), insertTagState db t, o) := by
  simp [add_tag, contains_tag, get_tag_id, hf, runExec, insertTagState]

theorem add_tag_state_cases (db : DB) (o : Oracle) (t : String) :
    (add_tag db o t).2.1 = db ∨
    (db.tags.find? (fun r => r.tag == t) = none ∧
      (add_tag db o t).2.1 = insertTagState db t) := by
  cases hf : db.tags.find? (fun r => r.tag == t) with
  | some r => left; rw [add_tag_present o hf]
  | none =>
      cases o with
      | nil => right; exact ⟨rfl, by rw [add_tag_absent_nil hf]⟩
      | cons b rest =>
          cases b with
          | true => left; rw [add_tag_absent_cons_true rest hf]
          | false => right; exact ⟨rfl, by rw [add_tag_absent_cons_false rest hf]⟩

theorem tagsUnique_insertTagState {db : DB} {t : String}
    (h : tagsUnique db) (hf : db.tags.find? (fun r => r.tag == t) = none) :
    tagsUnique (insertTagState db t) := by
  have hne : t ∉ db.tags.map (fun r => r.tag) := (find?_tag_eq_none_iff db t).mp hf
  unfold tagsUnique insertTagState at *
  rw [List.map_append, List.nodup_append]
  refine ⟨h, List.nodup_singleton t, ?_⟩
  simp only [List.map_cons, List.map_nil]
  exact List.disjoint_singleton.mpr hne

theorem tagsUnique_add_tag {db : DB} (o : Oracle) (t : String)
    (h : tagsUnique db) : tagsUnique (add_tag db o t).2.1 := by
  rcases add_tag_state_cases db o t with hs | ⟨hf, hs⟩
  · rw [hs]; exact h
  · rw [hs]; exact tagsUnique_insertTagState h hf

theorem tagsUnique_addTagsLoop (ts : List String) (db : DB) (o : Oracle)
    (h : tagsUnique db) : tagsUnique (addTagsLoop db o ts).1 := by
  induction ts generalizing db o with
  | nil => exact h
  | cons t ts ih =>
      simp only [addTagsLoop]
      exact ih _ _ (tagsUnique_add_tag o t h)

theorem add_tag_links (db : DB) (o : Oracle) (t : String) :
    (add_tag db o t).2.1.links = db.links := by
  rcases add_tag_state_cases db o t with hs | ⟨_, hs⟩ <;> rw [hs] <;> rfl

theorem addTagsLoop_links (ts : List String) (db : DB) (o : Oracle) :
    (addTagsLoop db o ts).1.links = db.links := by
  induction ts generalizing db o with
  | nil => rfl
  | cons t ts ih =>
      simp only [addTagsLoop]
      rw [ih, add_tag_links]

theorem find?_insertTagState {db : DB} {t : String}
    (hf : db.tags.find? (fun r => r.tag == t) = none) :
    (insertTagState db t).tags.find? (fun r => r.tag == t) =
      some ⟨nextId (db.tags.map (fun r => r.tag_id)), t⟩ := by
  show ((db.tags ++ [(⟨nextId (db.tags.map (fun r => r.tag_id)), t⟩ : TagRow)]).find?
    (fun r => r.tag == t)) = _
  rw [List.find?_append, hf]
  simp [List.find?]

theorem add_tag_twice (db : DB) (o2 : Oracle) (t : String) :
    add_tag (add_tag db [] t).2.1 o2 t =
      (.ok .TagAlreadyExists, (add_tag db [] t).2.1, o2) := by
  cases hf : db.tags.find? (fun r => r.tag == t) with
  | some r =>
      rw [add_tag_present [] hf]
      exact add_tag_present o2 hf
  | none =>
      rw [add_tag_absent_nil hf]
      exact add_tag_present o2 (find?_insertTagState hf)

theorem mem_tags_of_find?_some {db : DB} {t : String} {r : TagRow}
    (hf : db.tags.find? (fun r => r.tag == t) = some r) :
    t ∈ db.tags.map (fun r => r.tag) := by
  have hp := List.find?_some hf
  exact List.mem_map.mpr ⟨r, List.mem_of_find?_eq_some hf, by simpa [beq_iff_eq] using hp⟩

theorem countTag_insertTagState {db : DB} {t : String}
    (hf : db.tags.find? (fun r => r.tag == t) = none) :
    countTag (insertTagState db t) t = 1 := by
  have hne : t ∉ db.tags.map (fun r => r.tag) := (find?_tag_eq_none_iff db t).mp hf
  show ((db.tags ++ [(⟨nextId (db.tags.map (fun r => r.tag_id)), t⟩ : TagRow)]).map
    (fun r => r.tag)).count t = 1
  rw [List.map_append, List.count_append, List.count_eq_zero.mpr hne]
  simp

theorem countTag_add_tag_nil {db : DB} (t : String) (h : tagsUnique db) :
    countTag (add_tag db [] t).2.1 t = 1 := by
  cases hf : db.tags.find? (fun r => r.tag == t) with
  | some r =>
      rw [add_tag_present [] hf]
      exact List.count_eq_one_of_mem h (mem_tags_of_find?_some hf)
  | none =>
      rw [add_tag_absent_nil hf]
      exact countTag_insertTagState hf

theorem addTagsLoop_fresh (ts : List String) : ∀ db : DB, ts.Nodup →
    (∀ t ∈ ts, t ∉ db.tags.map (fun r => r.tag)) →
    (addTagsLoop db [] ts).1.tags.map (fun r => r.tag) =
      db.tags.map (fun r => r.tag) ++ ts := by
  induction ts with
  | nil => intro db _ _; simp [addTagsLoop]
  | cons t ts ih =>
      intro db hnd hfresh
      obtain ⟨hts, hnd'⟩ := List.nodup_cons.mp hnd
      have hf : db.tags.find? (fun r => r.tag == t) = none :=
        (find?_tag_eq_none_iff db t).mpr (hfresh t (List.mem_cons_self t ts))
      have hmap : (insertTagState db t).tags.map (fun r => r.tag) =
          db.tags.map (fun r => r.tag) ++ [t] := by
        simp [insertTagState]
      have hfresh' : ∀ u ∈ ts, u ∉ (insertTagState db t).tags.map (fun r => r.tag) := by
        intro u hu
        rw [hmap]
        simp only [List.mem_append, List.mem_singleton]
        rintro (hu' | rfl)
        · exact hfresh u (List.mem_cons_of_mem t hu) hu'
        · exact hts hu
      simp only [addTagsLoop]
      rw [add_tag_absent_nil hf]
      show (addTagsLoop (insertTagState db t) [] ts).1.tags.map (fun r => r.tag) = _
      rw [ih (insertTagState db t) hnd' hfresh', hmap, List.append_assoc,
        List.singleton_append]

/-! ## Helper lemmas about `runExec`, `add_entry` and `mark_read` -/

theorem runExec_nil (db : DB) (eff : DB → DB) :
    runExec db [] eff = (.ok 1, eff db, []) := rfl

theorem runExec_cons_true (db : DB) (o : Oracle) (eff : DB → DB) :
    runExec db (true :: o) eff = (.error .fault, db, o) := rfl

theorem runExec_cons_false (db : DB) (o : Oracle) (eff : DB → DB) :
    runExec db (false :: o) eff = (.ok 1, eff db, o) := rfl

theorem tagsUnique_add_entry (db : DB) (o : Oracle) (e : Entry)
    (h : tagsUnique db) : tagsUnique (add_entry db o e).2.1 := by
  have hlift : ∀ d : DB, d.tags = db.tags → tagsUnique d := by
    intro d hd
    unfold tagsUnique
    rw [hd]
    exact h
  cases he : e.tags with
  | none =>
      cases o with
      | nil =>
          simp only [add_entry, he, runExec_nil]
          exact hlift _ rfl
      | cons b rest =>
          cases b with
          | true =>
              simp only [add_entry, he, runExec_cons_true]
              exact hlift _ rfl
          | false =>
              simp only [add_entry, he, runExec_cons_false]
              exact hlift _ rfl
  | some ts =>
      cases o with
      | nil =>
          simp only [add_entry, he, runExec_nil]
          exact tagsUnique_addTagsLoop ts _ _ (hlift _ rfl)
      | cons b rest =>
          cases b with
          | true =>
              simp only [add_entry, he, runExec_cons_true]
              exact tagsUnique_addTagsLoop ts _ _ (hlift _ rfl)
          | false =>
              simp only [add_entry, he, runExec_cons_false]
              exact tagsUnique_addTagsLoop ts _ _ (hlift _ rfl)

theorem add_entry_links_nil (db : DB) (e : Entry) :
    (add_entry db [] e).2.1.links =
      db.links ++ [⟨nextId (db.links.map (fun r => r.link_id)), e.link,
        (match e.comment with | some c => c | none => ""),
        archiveToU8 Archive.Queue, e.timestamp⟩] := by
  cases he : e.tags with
  | none => simp only [add_entry, he, runExec_nil]
  | some ts =>
      simp only [add_entry, he, runExec_nil]
      rw [addTagsLoop_links]

theorem setArchived_link_id (id : Int) (r : LinkRow) :
    (setArchived id r).link_id = r.link_id := by
  unfold setArchived
  by_cases hc : r.link_id == id <;> simp [hc]

theorem setArchived_idem (id : Int) (r : LinkRow) :
    setArchived id (setArchived id r) = setArchived id r := by
  unfold setArchived
  by_cases hc : r.link_id == id <;> simp [hc]

theorem mark_read_not_found (db : DB) (id : Int)
    (h : db.links.any (fun r => r.link_id == id) = false) :
    mark_read db id = (.error .NotFound, db) := by
  simp [mark_read, h]

theorem mark_read_found (db : DB) (id : Int)
    (h : db.links.any (fun r => r.link_id == id) = true) :
    mark_read db id = (.ok (), { db with links := db.links.map (setArchived id) }) := by
  simp [mark_read, h]

theorem mark_read_idem (db : DB) (id : Int)
    (h : db.links.any (fun r => r.link_id == id) = true) :
    mark_read (mark_read db id).2 id = (.ok (), (mark_read db id).2) := by
  have hcomp : (fun r : LinkRow => r.link_id == id) ∘ setArchived id =
      (fun r : LinkRow => r.link_id == id) := by
    funext r
    simp [Function.comp, setArchived_link_id]
  rw [mark_read_found db id h]
  have hany : ({ db with links := db.links.map (setArchived id) } : DB).links.any
      (fun r => r.link_id == id) = true := by
    show (db.links.map (setArchived id)).any (fun r => r.link_id == id) = true
    rw [List.any_map, hcomp]
    exact h
  rw [mark_read_found _ id hany]
  have hmap : ((({ db with links := db.links.map (setArchived id) } : DB)).links.map
      (setArchived id)) = db.links.map (setArchived id) := by
    show ((db.links.map (setArchived id)).map (setArchived id)) = _
    rw [List.map_map]
    exact List.map_congr_left (fun r _ => setArchived_idem id r)
  rw [hmap]

/-! ## The claims -/

/-- C1: the claimed behaviour of `add_entry` — insert one link row, create
each absent tag and an association between the new link and each tag, and
return the new link identifier — does not hold: on the spec's own scenario
(`entryNewsTech`, fresh database, no faults) `add_entry` creates no
`linktags` row at all and returns `Ok(0)` even though the inserted link
got identifier 1. -/
theorem add_entry_creates_no_associations_and_returns_zero :
    (add_entry open_in_memory [] entryNewsTech).1 = .ok 0 ∧
    (add_entry open_in_memory [] entryNewsTech).2.1.linktags = [] ∧
    (add_entry open_in_memory [] entryNewsTech).2.1.links.map (fun r => r.link_id) =
      [1] ∧
    (add_entry open_in_memory [] entryNewsTech).2.1.tags.map (fun r => r.tag) =
      ["news", "tech"] :=
  ⟨rfl, rfl, rfl, rfl⟩

/-- C2: `add_entry` is not all-or-nothing: when the tag insert for `"y"`
faults during `add_entry` of `entryXY` (oracle `[false, false, true]`),
the call still reports success and leaves the link row and the tag row
for `"x"` visible. -/
theorem add_entry_partial_state_after_fault :
    (add_entry open_in_memory [false, false, true] entryXY).1 = .ok 0 ∧
    (add_entry open_in_memory [false, false, true] entryXY).2.1.links.map
      (fun r => r.link) = ["http://example.com"] ∧
    (add_entry open_in_memory [false, false, true] entryXY).2.1.tags =
      [⟨1, "x"⟩] :=
  ⟨rfl, rfl, rfl⟩

/-- C3: `mark_read` (modelled from the spec, absent from `src/`) returns
`NotFound` when no link has the identifier; on an existing link it
succeeds and every link with that identifier is `Archived` afterwards;
and re-applying it is not an error and leaves the state unchanged. -/
theorem mark_read_contract (db : DB) (id : Int) :
    (db.links.any (fun r => r.link_id == id) = false →
      mark_read db id = (.error .NotFound, db)) ∧
    (db.links.any (fun r => r.link_id == id) = true →
      (mark_read db id).1 = .ok () ∧
      (∀ r ∈ (mark_read db id).2.links, r.link_id = id →
        r.archive = archiveToU8 Archive.Archive) ∧
      mark_read (mark_read db id).2 id = (.ok (), (mark_read db id).2)) := by
  constructor
  · exact mark_read_not_found db id
  · intro h
    refine ⟨?_, ?_, mark_read_idem db id h⟩
    · rw [mark_read_found db id h]
    · intro r hr hid
      rw [mark_read_found db id h] at hr
      have hr' : r ∈ db.links.map (setArchived id) := hr
      obtain ⟨r₀, hr₀, rfl⟩ := List.mem_map.mp hr'
      by_cases hc : r₀.link_id == id
      · simp [setArchived, hc]
      · exfalso
        rw [setArchived_link_id] at hid
        exact hc (by simp [hid])

theorem mark_read_contract_witness :
    mark_read dbOneLink 2 = (.error .NotFound, dbOneLink) ∧
    (mark_read dbOneLink 1).1 = .ok () ∧
    mark_read (mark_read dbOneLink 1).2 1 = (.ok (), (mark_read dbOneLink 1).2) :=
  ⟨(mark_read_contract dbOneLink 2).1 (by decide),
   ((mark_read_contract dbOneLink 1).2 (by decide)).1,
   ((mark_read_contract dbOneLink 1).2 (by decide)).2.2⟩

/-- C4: `add_entry` swallows repository-level failures: when the link
insert itself faults (oracle `[true]`) the call still returns `Ok(0)`
(and no link row exists, while the tag inserts still went ahead). -/
theorem add_entry_returns_ok_despite_failed_link_insert :
    (add_entry open_in_memory [true] entryXY).1 = .ok 0 ∧
    (add_entry open_in_memory [true] entryXY).2.1.links = [] ∧
    (add_entry open_in_memory [true] entryXY).2.1.tags.map (fun r => r.tag) =
      ["x", "y"] :=
  ⟨rfl, rfl, rfl⟩

/-- C5: `init_database` idempotently creates the three tables, but the
`links` table it declares has only the columns `link_id`, `link` and
`comment` — the `archive` and `timestamp` columns named by `add_entry`'s
insert statement are missing from the schema. -/
theorem init_database_links_schema_mismatch :
    init_database [] = [linksTableDef, tagsTableDef, linktagsTableDef] ∧
    init_database (init_database []) = init_database [] ∧
    linksTableDef.columns = ["link_id", "link", "comment"] ∧
    "archive" ∈ addEntryInsertColumns ∧ "archive" ∉ linksTableDef.columns ∧
    "timestamp" ∈ addEntryInsertColumns ∧ "timestamp" ∉ linksTableDef.columns := by
  refine ⟨rfl, rfl, rfl, ?_, ?_, ?_, ?_⟩ <;> decide

/-- C6: tag-text uniqueness is an invariant: it is preserved by `add_tag`,
`add_entry` and `mark_read`; after a successful `add_tag t` the text `t`
occurs exactly once in the `tags` table; and a repeated `add_tag t`
returns `TagAlreadyExists` and leaves the database unchanged. -/
theorem tag_text_uniqueness_invariant (db : DB) (o o2 : Oracle) (t : String)
    (e : Entry) (id : Int) (h : tagsUnique db) :
    tagsUnique (add_tag db o t).2.1 ∧
    tagsUnique (add_entry db o e).2.1 ∧
    tagsUnique (mark_read db id).2 ∧
    countTag (add_tag db [] t).2.1 t = 1 ∧
    add_tag (add_tag db [] t).2.1 o2 t =
      (.ok .TagAlreadyExists, (add_tag db [] t).2.1, o2) := by
  refine ⟨tagsUnique_add_tag o t h, tagsUnique_add_entry db o e h, ?_,
    countTag_add_tag_nil t h, add_tag_twice db o2 t⟩
  unfold mark_read
  by_cases hc : db.links.any (fun r => r.link_id == id) = true <;> simp [hc] <;> exact h

theorem tag_text_uniqueness_invariant_witness :
    tagsUnique open_in_memory ∧
    (tagsUnique (add_tag open_in_memory [] "x").2.1 ∧
     tagsUnique (add_entry open_in_memory [] entrySimple).2.1 ∧
     tagsUnique (mark_read open_in_memory 1).2 ∧
     countTag (add_tag open_in_memory [] "x").2.1 "x" = 1 ∧
     add_tag (add_tag open_in_memory [] "x").2.1 [] "x" =
       (.ok .TagAlreadyExists, (add_tag open_in_memory [] "x").2.1, [])) :=
  ⟨by unfold tagsUnique; decide,
   tag_text_uniqueness_invariant open_in_memory [] [] "x" entrySimple 1
     (by unfold tagsUnique; decide)⟩

/-- C7: creating an absent tag and then looking it up round-trips: when
`get_tag_id` finds nothing for `t`, a fault-free `add_tag t` returns
`TagId i` for some `i`, and `get_tag_id t` afterwards returns the same
`TagId i`. -/
theorem create_then_find_returns_same_id (db : DB) (t : String)
    (h : get_tag_id db t = .ok .TagNotFound) :
    ∃ i, (add_tag db [] t).1 = .ok (.TagId i) ∧
      get_tag_id (add_tag db [] t).2.1 t = .ok (.TagId i) := by
  have hf : db.tags.find? (fun r => r.tag == t) = none := by
    cases hfind : db.tags.find? (fun r => r.tag == t) with
    | none => rfl
    | some r => simp [get_tag_id, hfind] at h
  refine ⟨nextId (db.tags.map (fun r => r.tag_id)), ?_, ?_⟩
  · rw [add_tag_absent_nil hf]
  · rw [add_tag_absent_nil hf]
    show get_tag_id (insertTagState db t) t = _
    simp [get_tag_id, find?_insertTagState hf]

theorem create_then_find_returns_same_id_witness :
    get_tag_id open_in_memory "w" = .ok .TagNotFound ∧
    ∃ i, (add_tag open_in_memory [] "w").1 = .ok (.TagId i) ∧
      get_tag_id (add_tag open_in_memory [] "w").2.1 "w" = .ok (.TagId i) :=
  ⟨rfl, create_then_find_returns_same_id open_in_memory "w" rfl⟩

/-- C8: `list_tags` preserves creation order: first creating any sequence
of distinct tag texts on a fresh database (via the tag-insertion loop,
fault-free) makes `list_tags` return exactly that sequence. -/
theorem list_tags_preserves_insertion_order (ts : List String) (h : ts.Nodup) :
    list_tags (addTagsLoop open_in_memory [] ts).1 = .ok ts := by
  have hfresh := addTagsLoop_fresh ts open_in_memory h (by intro t _; simp [open_in_memory])
  unfold list_tags
  rw [hfresh]
  simp [open_in_memory]

theorem list_tags_preserves_insertion_order_witness :
    (["a", "b", "c"] : List String).Nodup ∧
    list_tags (addTagsLoop open_in_memory [] ["a", "b", "c"]).1 =
      .ok ["a", "b", "c"] :=
  ⟨by decide, list_tags_preserves_insertion_order ["a", "b", "c"] (by decide)⟩

/-- C9: when an entry's comment is absent, the link row written by a
fault-free `add_entry` stores the empty string as its comment. -/
theorem absent_comment_stored_as_empty_string (db : DB) (e : Entry)
    (h : e.comment = none) :
    (add_entry db [] e).2.1.links =
      db.links ++ [⟨nextId (db.links.map (fun r => r.link_id)), e.link, "",
        archiveToU8 Archive.Queue, e.timestamp⟩] := by
  rw [add_entry_links_nil db e, h]

theorem absent_comment_stored_as_empty_string_witness :
    entrySimple.comment = none ∧
    (add_entry open_in_memory [] entrySimple).2.1.links =
      open_in_memory.links ++
        [⟨nextId (open_in_memory.links.map (fun r => r.link_id)),
          entrySimple.link, "", archiveToU8 Archive.Queue, entrySimple.timestamp⟩] :=
  ⟨rfl, absent_comment_stored_as_empty_string open_in_memory entrySimple rfl⟩

/-- C10: the cross-type equalities between `TagAddResult` and
`TagQueryResult` are symmetric, hold exactly on matching `TagId`
identifiers, and `TagAlreadyExists` and `TagNotFound` equal nothing of
the other type. -/
theorem tag_result_cross_equality (a : TagAddResult) (q : TagQueryResult) :
    tagAddEqQuery a q = tagQueryEqAdd q a ∧
    (tagAddEqQuery a q = true ↔ ∃ i, a = .TagId i ∧ q = .TagId i) ∧
    tagAddEqQuery .TagAlreadyExists q = false ∧
    tagQueryEqAdd .TagNotFound a = false := by
  have hcomm : ∀ i j : Int, (i == j) = (j == i) := by
    intro i j
    by_cases hij : i = j
    · rw [hij]
    · rw [beq_eq_false_iff_ne.mpr hij, beq_eq_false_iff_ne.mpr (Ne.symm hij)]
  refine ⟨?_, ?_, ?_, ?_⟩
  · cases a <;> cases q <;> simp [tagAddEqQuery, tagQueryEqAdd, hcomm]
  · cases a with
    | TagAlreadyExists => cases q <;> simp [tagAddEqQuery]
    | TagId i =>
        cases q with
        | TagNotFound => simp [tagAddEqQuery]
        | TagId j =>
            simp only [tagAddEqQuery, beq_iff_eq]
            constructor
            · rintro rfl
              exact ⟨i, rfl, rfl⟩
            · rintro ⟨k, hk1, hk2⟩
              injection hk1 with h1
              injection hk2 with h2
              rw [h1, h2]
  · cases q <;> rfl
  · cases a <;> rfl

end Tsundoku
